import Mathlib

/-!
# Verification of the `civil` date library

A shallow embedding of `civil.go`: a civil (calendar) date value type with
validity checking, day/month arithmetic, comparison, textual formatting and
parsing, and JSON / storage (de)serialisation adapters.

The Go code delegates calendar conversions to the Go `time` package
(`time.Date`, `Time.Date`, `Time.Unix`, `Time.AddDate`, `time.Parse`,
`fmt.Sprintf`, `encoding/json`).  Those collaborators are modelled here
explicitly: timestamps are unbounded integers counting seconds since the Unix
epoch, and the calendar is the proleptic Gregorian calendar (exactly the
function computed by the Go `time` package for UTC and fixed-offset zones).
-/

namespace Civil

/-- The `Date` struct of `civil.go`: year/month/day triple.  `Month` is Go's
`time.Month`, an integer type, so out-of-range values are representable. -/
structure Date where
  year : Int
  month : Int
  day : Int
deriving DecidableEq, Repr

/-- Model of the proleptic-Gregorian conversion performed by the Go `time`
package: the day number (days since 1970-01-01) of the civil triple
`(y, m, d)`, for `m ∈ [1,12]` (`d` may be out of range; it is added as an
offset from the first of the month, exactly as `time.Date` treats an
overflowing day). -/
def daysFromCivil (y m d : Int) : Int :=
  let y' := if m ≤ 2 then y - 1 else y
  let era := y' / 400
  let yoe := y' - era * 400
  let mp := if 2 < m then m - 3 else m + 9
  let doy := (153 * mp + 2) / 5 + d - 1
  let doe := yoe * 365 + yoe / 4 - yoe / 100 + doy
  era * 146097 + doe - 719468

/-- Model of the inverse conversion performed by the Go `time` package
(`Time.Date`): the civil triple of a day number. -/
def civilFromDays (z : Int) : Date :=
  let z' := z + 719468
  let era := z' / 146097
  let doe := z' - era * 146097
  let yoe := (doe - doe / 1460 + doe / 36524 - doe / 146096) / 365
  let y := yoe + era * 400
  let doy := doe - (365 * yoe + yoe / 4 - yoe / 100)
  let mp := (5 * doy + 2) / 153
  let d := doy - (153 * mp + 2) / 5 + 1
  let m := if mp < 10 then mp + 3 else mp - 9
  ⟨if m ≤ 2 then y + 1 else y, m, d⟩

/-- Model of a Go `time.Time` value: seconds since the Unix epoch together
with the zone offset (seconds east of UTC) of its location.  The location is
UTC when `offset = 0`. -/
structure GoTime where
  unix : Int
  offset : Int
deriving DecidableEq, Repr

/-- Model of Go `time.Date(y, mo, d, hh, mi, ss, 0, loc)` for a fixed-offset
location: the month is normalised into `[1,12]` by borrowing years (Go's
`norm`), then the overflowing day and the clock are added as offsets from
midnight of the first of the month. -/
def timeDate (y mo d hh mi ss offset : Int) : GoTime :=
  let m0 := mo - 1
  let ny := y + m0 / 12
  let nm := m0 % 12 + 1
  ⟨86400 * (daysFromCivil ny nm 1 + (d - 1)) + 3600 * hh + 60 * mi + ss - offset, offset⟩

/-- `DateOf(t)`: extract the year/month/day of `t` as observed in `t`'s
location (Go `Time.Date`). -/
def DateOf (t : GoTime) : Date :=
  civilFromDays ((t.unix + t.offset) / 86400)

/-- `Date.In(loc)`: midnight of the date in the given location.  The library
only ever calls this with `loc = time.UTC`, which is what is modelled. -/
def Date.In (d : Date) : GoTime :=
  timeDate d.year d.month d.day 0 0 0 0

/-- `Date.IsValid`: round-trip check `DateOf(d.In(time.UTC)) == d`. -/
def Date.IsValid (d : Date) : Bool :=
  DateOf d.In == d

/-- Model of Go `Time.AddDate(0, 0, n)`: re-build the time from its own
civil date with the day shifted by `n`, keeping the clock and location. -/
def GoTime.addDays (t : GoTime) (n : Int) : GoTime :=
  let c := DateOf t
  let s := (t.unix + t.offset) % 86400
  timeDate c.year c.month (c.day + n) (s / 3600) (s % 3600 / 60) (s % 60) t.offset

/-- `Date.AddDays(n)`: `DateOf(d.In(time.UTC).AddDate(0, 0, n))`. -/
def Date.AddDays (d : Date) (n : Int) : Date :=
  DateOf (d.In.addDays n)

/-- `maxDay(year, month)`: the month-length table of `civil.go`; `-1` for a
month outside January..December. -/
def maxDay (year month : Int) : Int :=
  if month = 1 then 31
  else if month = 2 then
    (if year % 400 = 0 ∨ (year % 4 = 0 ∧ year % 100 ≠ 0) then 29 else 28)
  else if month = 3 then 31
  else if month = 4 then 30
  else if month = 5 then 31
  else if month = 6 then 30
  else if month = 7 then 31
  else if month = 8 then 31
  else if month = 9 then 30
  else if month = 10 then 31
  else if month = 11 then 30
  else if month = 12 then 31
  else -1

/-- `clampDay(year, month, day)`: lower `day` to `maxDay` when it exceeds it. -/
def clampDay (year month day : Int) : Int :=
  if day > maxDay year month then maxDay year month else day

/-- The `month >= 12` normalisation loop of `AddMonths`. -/
def addMonthsNormUp (year month : Int) : Int × Int :=
  if h : 12 ≤ month then addMonthsNormUp (year + 1) (month - 12) else (year, month)
termination_by month.toNat
decreasing_by
  have : 0 ≤ month - 12 := by omega
  omega

/-- The `month < 0` normalisation loop of `AddMonths`. -/
def addMonthsNormDown (year month : Int) : Int × Int :=
  if h : month < 0 then addMonthsNormDown (year - 1) (month + 12) else (year, month)
termination_by (-month).toNat
decreasing_by omega

/-- `Date.AddMonths(n)`: add `n` calendar months by normalising
`(month - 1) + n` through the borrowing loops, then clamping the day. -/
def Date.AddMonths (d : Date) (n : Int) : Date :=
  let month := (d.month - 1) + n
  let p :=
    if 12 ≤ month then addMonthsNormUp d.year month
    else if month < 0 then addMonthsNormDown d.year month
    else (d.year, month)
  ⟨p.1, p.2 + 1, clampDay p.1 (p.2 + 1) d.day⟩

/-- `Date.SetDayClamped(day)`: same year/month, day clamped. -/
def Date.SetDayClamped (d : Date) (day : Int) : Date :=
  ⟨d.year, d.month, clampDay d.year d.month day⟩

/-- `Date.DaysSince(s)`: `(d.In(UTC).Unix() - s.In(UTC).Unix()) / 86400`
with Go's truncated integer division. -/
def Date.DaysSince (d s : Date) : Int :=
  Int.tdiv (d.In.unix - s.In.unix) 86400

/-- `Date.On(other)`: structural equality. -/
def Date.On (d other : Date) : Bool :=
  d == other

/-- `Date.Before(other)`: lexicographic comparison on (year, month, day). -/
def Date.Before (d other : Date) : Bool :=
  if d.year ≠ other.year then d.year < other.year
  else if d.month ≠ other.month then d.month < other.month
  else d.day < other.day

/-- `Date.BeforeOrOn(other)`. -/
def Date.BeforeOrOn (d other : Date) : Bool :=
  d.On other || d.Before other

/-- `Date.After(other)`: the swapped `Before`. -/
def Date.After (d other : Date) : Bool :=
  other.Before d

/-- `Date.AfterOrOn(other)`. -/
def Date.AfterOrOn (d other : Date) : Bool :=
  d.On other || d.After other

/-- `Date.MonthsUntil(other)`. -/
def Date.MonthsUntil (d other : Date) : Int :=
  (other.month - d.month) + (other.year - d.year) * 12

/-- `Date.FirstOfMonth()`: constant 1. -/
def Date.FirstOfMonth (_ : Date) : Int := 1

/-- `Date.LastOfMonth()`: `maxDay(year, month)`. -/
def Date.LastOfMonth (d : Date) : Int := maxDay d.year d.month

/-- `Date.IsFirstOfMonth()`. -/
def Date.IsFirstOfMonth (d : Date) : Bool := d.day == d.FirstOfMonth

/-- `Date.IsLastOfMonth()`. -/
def Date.IsLastOfMonth (d : Date) : Bool := d.day == d.LastOfMonth

/-! ### Model of `fmt` decimal formatting -/

/-- The character of a decimal digit. -/
def digitChar (n : Nat) : Char := Char.ofNat (48 + n)

/-- Decimal digits of a natural number, most significant first (with an
explicit fuel argument so that the recursion is structural). -/
def natDigitsAux : Nat → Nat → List Char → List Char
  | 0, _, acc => acc
  | fuel + 1, n, acc =>
    if n < 10 then digitChar n :: acc
    else natDigitsAux fuel (n / 10) (digitChar (n % 10) :: acc)

/-- Decimal digits of a natural number, most significant first. -/
def natDigits (n : Nat) : List Char := natDigitsAux (n + 1) n []

/-- Left-pad with zeros to the given width. -/
def padLeftZeros (w : Nat) (s : List Char) : List Char :=
  List.replicate (w - s.length) '0' ++ s

/-- Model of Go `fmt` `%0Nd`: decimal, zero-padded to width `N`; the minus
sign of a negative number occupies part of the width. -/
def goZeroPad (w : Nat) (n : Int) : List Char :=
  if n < 0 then '-' :: padLeftZeros (w - 1) (natDigits n.natAbs)
  else padLeftZeros w (natDigits n.toNat)

/-- `Date.String()`: `fmt.Sprintf("%04d-%02d-%02d", d.Year, d.Month, d.Day)`. -/
def Date.String (d : Date) : List Char :=
  goZeroPad 4 d.year ++ '-' :: goZeroPad 2 d.month ++ '-' :: goZeroPad 2 d.day

/-- Numeric value of a digit string (vocabulary for stating formatting
properties). -/
def digitsValNat (l : List Char) : Nat :=
  l.foldl (fun a c => a * 10 + (c.toNat - 48)) 0

/-! ### Model of `time.Parse` for the two layouts used by `ParseDate` -/

/-- ASCII digit test (Go `isDigit`). -/
def isDigitCh (c : Char) : Bool := 48 ≤ c.toNat && c.toNat ≤ 57

/-- Numeric value of an ASCII digit. -/
def digitVal (c : Char) : Int := (c.toNat : Int) - 48

/-- Model of Go `time.isLeap`. -/
def timeIsLeap (y : Int) : Bool := y % 4 == 0 && (y % 100 != 0 || y % 400 == 0)

/-- Model of Go `time.daysIn` (only ever applied to a month in `[1,12]`). -/
def timeDaysIn (m y : Int) : Int :=
  if m = 2 then (if timeIsLeap y then 29 else 28)
  else if m = 1 ∨ m = 3 ∨ m = 5 ∨ m = 7 ∨ m = 8 ∨ m = 10 ∨ m = 12 then 31
  else 30

/-- A Go `time.ParseError`, carrying the layout, the full value, and a
message describing the failing element. -/
structure ParseError where
  layout : List Char
  value : List Char
  message : List Char
deriving DecidableEq, Repr

def dateLayout : List Char := "2006-01-02".data

def timestampLayout : List Char := "2006-01-02T15:04:05Z07:00".data

def cannotParseMsg : List Char := "cannot parse".data

def monthRangeMsg : List Char := "month out of range".data

def dayRangeMsg : List Char := "day out of range".data

def hourRangeMsg : List Char := "hour out of range".data

def minuteRangeMsg : List Char := "minute out of range".data

def secondRangeMsg : List Char := "second out of range".data

def extraTextMsg : List Char := "extra text".data

/-- Go parse of the `2006` layout chunk: four bytes, all ASCII digits. -/
def parseYear4 : List Char → Option (Int × List Char)
  | c0 :: c1 :: c2 :: c3 :: rest =>
    if isDigitCh c0 && isDigitCh c1 && isDigitCh c2 && isDigitCh c3 then
      some (((digitVal c0 * 10 + digitVal c1) * 10 + digitVal c2) * 10 + digitVal c3, rest)
    else none
  | _ => none

/-- Go `getnum` with `fixed = true`: exactly two ASCII digits. -/
def getnum2 : List Char → Option (Int × List Char)
  | c0 :: c1 :: rest =>
    if isDigitCh c0 && isDigitCh c1 then some (digitVal c0 * 10 + digitVal c1, rest)
    else none
  | _ => none

/-- Go `getnum` with `fixed = false`: one or two ASCII digits. -/
def getnum1or2 : List Char → Option (Int × List Char)
  | [] => none
  | [c0] => if isDigitCh c0 then some (digitVal c0, []) else none
  | c0 :: c1 :: rest =>
    if isDigitCh c0 then
      if isDigitCh c1 then some (digitVal c0 * 10 + digitVal c1, rest)
      else some (digitVal c0, c1 :: rest)
    else none

/-- Consume one expected literal character of the layout. -/
def expectChar (c : Char) : List Char → Option (List Char)
  | x :: rest => if x = c then some rest else none
  | [] => none

/-- Model of `time.Parse("2006-01-02", s)`: year, `-`, two-digit month
(range-checked inline), `-`, two-digit day, end of input, then the
day-of-month validation; the result is the parsed triple at midnight UTC. -/
def parseLayoutDate (s : List Char) : Except ParseError GoTime :=
  match parseYear4 s with
  | none => .error ⟨dateLayout, s, cannotParseMsg⟩
  | some (year, r1) =>
    match expectChar '-' r1 with
    | none => .error ⟨dateLayout, s, cannotParseMsg⟩
    | some r2 =>
      match getnum2 r2 with
      | none => .error ⟨dateLayout, s, cannotParseMsg⟩
      | some (mo, r3) =>
        if mo < 1 ∨ 12 < mo then .error ⟨dateLayout, s, monthRangeMsg⟩
        else
          match expectChar '-' r3 with
          | none => .error ⟨dateLayout, s, cannotParseMsg⟩
          | some r4 =>
            match getnum2 r4 with
            | none => .error ⟨dateLayout, s, cannotParseMsg⟩
            | some (day, r5) =>
              if r5 ≠ [] then .error ⟨dateLayout, s, extraTextMsg⟩
              else if day < 1 ∨ timeDaysIn mo year < day then
                .error ⟨dateLayout, s, dayRangeMsg⟩
              else .ok (timeDate year mo day 0 0 0 0)

/-- Drop a leading run of ASCII digits. -/
def skipDigits : List Char → List Char
  | c :: rest => if isDigitCh c then skipDigits rest else c :: rest
  | [] => []

/-- Go's handling of an unannounced fractional second: when the layout has no
fraction but the value continues with `.` or `,` followed by a digit, the
whole digit run is consumed. -/
def parseFrac (s : List Char) : List Char :=
  match s with
  | p :: d1 :: rest =>
    if (p = '.' ∨ p = ',') ∧ isDigitCh d1 = true then skipDigits rest
    else s
  | _ => s

/-- Go parse of the `Z07:00` layout chunk: `Z` (UTC) or a signed
`hh:mm` offset, seconds east of UTC. -/
def parseZone (s : List Char) : Option (Int × List Char) :=
  match expectChar 'Z' s with
  | some rest => some (0, rest)
  | none =>
    match s with
    | c0 :: c1 :: c2 :: c3 :: c4 :: c5 :: rest =>
      if (c0 = '+' ∨ c0 = '-') ∧ isDigitCh c1 = true ∧ isDigitCh c2 = true ∧ c3 = ':'
          ∧ isDigitCh c4 = true ∧ isDigitCh c5 = true then
        let off := (digitVal c1 * 10 + digitVal c2) * 3600 + (digitVal c4 * 10 + digitVal c5) * 60
        some (if c0 = '-' then -off else off, rest)
      else none
    | _ => none

/-- Model of `time.Parse("2006-01-02T15:04:05Z07:00", s)`: the date part as
in the strict layout, then `T`, clock fields (hour one or two digits, minute
and second two digits, each range-checked inline), an optional fractional
second, and the zone; then the day-of-month validation.  The result carries
the parsed zone offset, so extracting its date yields the written triple. -/
def parseLayoutTimestamp (s : List Char) : Except ParseError GoTime :=
  match parseYear4 s with
  | none => .error ⟨timestampLayout, s, cannotParseMsg⟩
  | some (year, r1) =>
    match expectChar '-' r1 with
    | none => .error ⟨timestampLayout, s, cannotParseMsg⟩
    | some r2 =>
      match getnum2 r2 with
      | none => .error ⟨timestampLayout, s, cannotParseMsg⟩
      | some (mo, r3) =>
        if mo < 1 ∨ 12 < mo then .error ⟨timestampLayout, s, monthRangeMsg⟩
        else
          match expectChar '-' r3 with
          | none => .error ⟨timestampLayout, s, cannotParseMsg⟩
          | some r4 =>
            match getnum2 r4 with
            | none => .error ⟨timestampLayout, s, cannotParseMsg⟩
            | some (day, r5) =>
              match expectChar 'T' r5 with
              | none => .error ⟨timestampLayout, s, cannotParseMsg⟩
              | some r6 =>
                match getnum1or2 r6 with
                | none => .error ⟨timestampLayout, s, cannotParseMsg⟩
                | some (hh, r7) =>
                  if hh < 0 ∨ 23 < hh then .error ⟨timestampLayout, s, hourRangeMsg⟩
                  else
                    match expectChar ':' r7 with
                    | none => .error ⟨timestampLayout, s, cannotParseMsg⟩
                    | some r8 =>
                      match getnum2 r8 with
                      | none => .error ⟨timestampLayout, s, cannotParseMsg⟩
                      | some (mi, r9) =>
                        if mi < 0 ∨ 59 < mi then .error ⟨timestampLayout, s, minuteRangeMsg⟩
                        else
                          match expectChar ':' r9 with
                          | none => .error ⟨timestampLayout, s, cannotParseMsg⟩
                          | some r10 =>
                            match getnum2 r10 with
                            | none => .error ⟨timestampLayout, s, cannotParseMsg⟩
                            | some (ss, r11) =>
                              if ss < 0 ∨ 59 < ss then
                                .error ⟨timestampLayout, s, secondRangeMsg⟩
                              else
                                match parseZone (parseFrac r11) with
                                | none => .error ⟨timestampLayout, s, cannotParseMsg⟩
                                | some (off, r12) =>
                                  if r12 ≠ [] then .error ⟨timestampLayout, s, extraTextMsg⟩
                                  else if day < 1 ∨ timeDaysIn mo year < day then
                                    .error ⟨timestampLayout, s, dayRangeMsg⟩
                                  else .ok (timeDate year mo day hh mi ss off)

/-- `ParseDate(s)`: strict date layout first; on failure the timestamp
layout; when both fail, the error of the first attempt is returned with the
zero `Date` — modelled, like the Go original, as the `(Date, error)` pair. -/
def ParseDate (s : List Char) : Date × Option ParseError :=
  match parseLayoutDate s with
  | .ok t => (DateOf t, none)
  | .error e =>
    match parseLayoutTimestamp s with
    | .ok t => (DateOf t, none)
    | .error _ => (⟨0, 0, 0⟩, some e)

/-! ### Model of `encoding/json` string (un)marshalling and the adapters -/

/-- Hexadecimal digit character (lower case), as used by Go's JSON encoder. -/
def hexDigit (n : Nat) : Char :=
  if n < 10 then digitChar n else Char.ofNat (87 + n)

/-- Go `encoding/json` escaping of one character of a string (HTML-escaping
of `<`, `>`, `&` is on by default in `json.Marshal`). -/
def jsonEscapeChar (c : Char) : List Char :=
  if c = '"' then ['\\', '"']
  else if c = '\\' then ['\\', '\\']
  else if c = '\n' then ['\\', 'n']
  else if c = '\r' then ['\\', 'r']
  else if c = '\t' then ['\\', 't']
  else if c = '<' ∨ c = '>' ∨ c = '&' ∨ c.toNat < 32 then
    ['\\', 'u', '0', '0', hexDigit (c.toNat / 16), hexDigit (c.toNat % 16)]
  else if c.toNat = 8232 ∨ c.toNat = 8233 then
    ['\\', 'u', '2', '0', '2', hexDigit (c.toNat % 16)]
  else [c]

/-- Model of `json.Marshal` applied to a string. -/
def jsonQuote (s : List Char) : List Char :=
  '"' :: (s.map jsonEscapeChar).flatten ++ ['"']

/-- JSON whitespace. -/
def isJSONWhite (c : Char) : Bool :=
  c == ' ' || c == '\t' || c == '\n' || c == '\r'

/-- Drop leading JSON whitespace. -/
def skipWhite : List Char → List Char
  | c :: rest => if isJSONWhite c then skipWhite rest else c :: rest
  | [] => []

/-- Value of a hexadecimal digit. -/
def hexVal (c : Char) : Option Nat :=
  if 48 ≤ c.toNat ∧ c.toNat ≤ 57 then some (c.toNat - 48)
  else if 97 ≤ c.toNat ∧ c.toNat ≤ 102 then some (c.toNat - 87)
  else if 65 ≤ c.toNat ∧ c.toNat ≤ 70 then some (c.toNat - 55)
  else none

/-- Scan the body of a JSON string literal after the opening quote,
decoding escapes; yields the decoded text and the remaining input.  An
unpaired `\u` surrogate decodes to U+FFFD as in Go (surrogate pairs, which
cannot appear in a date string, are not modelled). -/
def jsonStringBody : List Char → List Char → Option (List Char × List Char)
  | [], _ => none
  | c :: rest, acc =>
    if c = '"' then some (acc.reverse, rest)
    else if c = '\\' then
      match rest with
      | [] => none
      | e :: r2 =>
        if e = '"' then jsonStringBody r2 ('"' :: acc)
        else if e = '\\' then jsonStringBody r2 ('\\' :: acc)
        else if e = '/' then jsonStringBody r2 ('/' :: acc)
        else if e = 'b' then jsonStringBody r2 (Char.ofNat 8 :: acc)
        else if e = 'f' then jsonStringBody r2 (Char.ofNat 12 :: acc)
        else if e = 'n' then jsonStringBody r2 ('\n' :: acc)
        else if e = 'r' then jsonStringBody r2 ('\r' :: acc)
        else if e = 't' then jsonStringBody r2 ('\t' :: acc)
        else if e = 'u' then
          match r2 with
          | h1 :: h2 :: h3 :: h4 :: r3 =>
            match hexVal h1, hexVal h2, hexVal h3, hexVal h4 with
            | some v1, some v2, some v3, some v4 =>
              let v := ((v1 * 16 + v2) * 16 + v3) * 16 + v4
              if 55296 ≤ v ∧ v < 57344 then jsonStringBody r3 (Char.ofNat 65533 :: acc)
              else jsonStringBody r3 (Char.ofNat v :: acc)
            | _, _, _, _ => none
          | _ => none
        else none
    else if c.toNat < 32 then none
    else jsonStringBody rest (c :: acc)

/-- Model of `json.Unmarshal(data, &s)` for a string target: optional
whitespace, one JSON string literal, optional whitespace, end of input;
any other JSON value or malformed input fails. -/
def jsonUnquote (data : List Char) : Option (List Char) :=
  match expectChar '"' (skipWhite data) with
  | none => none
  | some rest =>
    match jsonStringBody rest [] with
    | some (s, r2) => if skipWhite r2 = [] then some s else none
    | none => none

/-- The error kinds of the decode adapters. -/
inductive DecodeError where
  | json : DecodeError
  | parse : ParseError → DecodeError
  | scanType : List Char → DecodeError
deriving DecidableEq, Repr

/-- `Date.MarshalText()`: the canonical string; never fails. -/
def Date.MarshalText (d : Date) : List Char × Option ParseError :=
  (d.String, none)

/-- `Date.UnmarshalText(text)`: `*d, err = ParseDate(string(text))` — the
receiver is assigned `ParseDate`'s value unconditionally, even on failure
(when that value is the zero `Date`); returns the new receiver value and
the error. -/
def Date.UnmarshalText (_ : Date) (text : List Char) : Date × Option ParseError :=
  ParseDate text

/-- `Date.MarshalJSON()`: `json.Marshal(d.String())`; never fails. -/
def Date.MarshalJSON (d : Date) : List Char × Option DecodeError :=
  (jsonQuote d.String, none)

/-- `Date.UnmarshalJSON(data)`: unmarshal a JSON string, then `ParseDate`;
the receiver (first argument) is only overwritten on success. -/
def Date.UnmarshalJSON (d : Date) (data : List Char) : Date × Option DecodeError :=
  match jsonUnquote data with
  | none => (d, some .json)
  | some s =>
    match ParseDate s with
    | (v, none) => (v, none)
    | (_, some e) => (d, some (.parse e))

/-- The dynamic type of a `database/sql` source value: a `time.Time`, a
string, or anything else (identified by its type name). -/
inductive ScanSrc where
  | timeVal : GoTime → ScanSrc
  | strVal : List Char → ScanSrc
  | otherVal : List Char → ScanSrc
deriving DecidableEq, Repr

/-- `Date.Scan(src)`: a `time.Time` is truncated with `DateOf`; a string is
parsed with `ParseDate` (the receiver kept on failure); any other kind
fails with a "can't scan" error naming the kind. -/
def Date.Scan (d : Date) (src : ScanSrc) : Date × Option DecodeError :=
  match src with
  | .timeVal t => (DateOf t, none)
  | .strVal s =>
    match ParseDate s with
    | (t, none) => (t, none)
    | (_, some e) => (d, some (.parse e))
  | .otherVal ty => (d, some (.scanType ty))

/-- `Date.Value()`: the canonical string; never fails. -/
def Date.Value (d : Date) : List Char × Option DecodeError :=
  (d.String, none)

/-- Closed form of the upward borrowing loop. -/
theorem addMonthsNormUp_eq (y m : Int) (h : 0 ≤ m) :
    addMonthsNormUp y m = (y + m / 12, m % 12) := by
  by_cases h12 : 12 ≤ m
  · rw [addMonthsNormUp, dif_pos h12, addMonthsNormUp_eq (y + 1) (m - 12) (by omega)]
    simp only [Prod.mk.injEq]
    omega
  · rw [addMonthsNormUp, dif_neg h12]
    simp only [Prod.mk.injEq]
    omega
termination_by m.toNat
decreasing_by omega

/-- Closed form of the downward borrowing loop. -/
theorem addMonthsNormDown_eq (y m : Int) (h : m < 12) :
    addMonthsNormDown y m = (y + m / 12, m % 12) := by
  by_cases h0 : m < 0
  · rw [addMonthsNormDown, dif_pos h0, addMonthsNormDown_eq (y - 1) (m + 12) (by omega)]
    simp only [Prod.mk.injEq]
    omega
  · rw [addMonthsNormDown, dif_neg h0]
    simp only [Prod.mk.injEq]
    omega
termination_by (-m).toNat
decreasing_by omega

/-- Closed form of `AddMonths`: the normalisation loops amount to floor
division of the month total by 12. -/
theorem Date.AddMonths_eq (d : Date) (n : Int) :
    d.AddMonths n =
      ⟨d.year + (d.month - 1 + n) / 12, (d.month - 1 + n) % 12 + 1,
        clampDay (d.year + (d.month - 1 + n) / 12) ((d.month - 1 + n) % 12 + 1) d.day⟩ := by
  show (let month := (d.month - 1) + n
    let p :=
      if 12 ≤ month then addMonthsNormUp d.year month
      else if month < 0 then addMonthsNormDown d.year month
      else (d.year, month)
    (⟨p.1, p.2 + 1, clampDay p.1 (p.2 + 1) d.day⟩ : Date)) = _
  simp only
  split_ifs with h1 h2
  · rw [addMonthsNormUp_eq d.year _ (by omega)]
  · rw [addMonthsNormDown_eq d.year _ (by omega)]
  · have hd : (d.month - 1 + n) / 12 = 0 ∧ (d.month - 1 + n) % 12 = d.month - 1 + n := by
      omega
    rw [hd.1, hd.2]
    simp

set_option maxHeartbeats 40000000 in
/-- The year-of-era formula of `civilFromDays` picks the correct year: the
day-of-year offset it leaves is in `[0, 365]`, reaching `365` only in a leap
year of the (March-based) era. -/
theorem yoeDoyCrux (doe yoe : Int) (h0 : 0 ≤ doe) (h1 : doe ≤ 146096)
    (hy : yoe = (doe - doe / 1460 + doe / 36524 - doe / 146096) / 365) :
    0 ≤ yoe ∧ yoe ≤ 399 ∧
    365 * yoe + yoe / 4 - yoe / 100 ≤ doe ∧
    doe - (365 * yoe + yoe / 4 - yoe / 100) ≤ 365 ∧
    (doe - (365 * yoe + yoe / 4 - yoe / 100) = 365 →
      (yoe + 1) % 4 = 0 ∧ ((yoe + 1) % 100 ≠ 0 ∨ yoe = 399)) := by
  have hb0 : 0 ≤ yoe := by omega
  have hb1 : yoe ≤ 399 := by omega
  refine ⟨hb0, hb1, ?_⟩
  interval_cases yoe <;> omega

set_option maxHeartbeats 8000000 in
/-- Working form of the `civilFromDays` correctness statement, with every
intermediate of the algorithm named by an equation. -/
theorem civilCore (k z' era doe yoe y doy mp dd m Y : Int)
    (hz : z' = k + 719468)
    (her : era = z' / 146097)
    (hdo : doe = z' - era * 146097)
    (hyo : yoe = (doe - doe / 1460 + doe / 36524 - doe / 146096) / 365)
    (hy : y = yoe + era * 400)
    (hdy : doy = doe - (365 * yoe + yoe / 4 - yoe / 100))
    (hmp : mp = (5 * doy + 2) / 153)
    (hdd : dd = doy - (153 * mp + 2) / 5 + 1)
    (hm : m = if mp < 10 then mp + 3 else mp - 9)
    (hY : Y = if m ≤ 2 then y + 1 else y)
    (hck : civilFromDays k = ⟨Y, m, dd⟩) :
    1 ≤ (civilFromDays k).month ∧ (civilFromDays k).month ≤ 12 ∧
    1 ≤ (civilFromDays k).day ∧
    (civilFromDays k).day ≤ maxDay (civilFromDays k).year (civilFromDays k).month ∧
    daysFromCivil (civilFromDays k).year (civilFromDays k).month (civilFromDays k).day = k := by
  have hdoe0 : 0 ≤ doe := by omega
  have hdoe1 : doe ≤ 146096 := by omega
  obtain ⟨c1, c2, c3, c4, c5⟩ := yoeDoyCrux doe yoe hdoe0 hdoe1 hyo
  have hdoy0 : 0 ≤ doy := by omega
  have hdoy1 : doy ≤ 365 := by omega
  have hmp0 : 0 ≤ mp := by omega
  have hmp1 : mp ≤ 11 := by omega
  rw [hck]
  dsimp only
  unfold daysFromCivil
  dsimp only
  by_cases hs : mp < 10
  · -- March..December of the March-based year: m = mp + 3 ∈ [3, 12]
    rw [if_pos hs] at hm
    have hm2 : ¬ (m ≤ 2) := by omega
    have hm3 : 2 < m := by omega
    rw [if_neg hm2] at hY
    rw [if_neg hm2, if_pos hm3]
    refine ⟨by omega, by omega, by omega, ?_, ?_⟩
    · -- dd ≤ maxDay Y m, with m = mp + 3 ∈ [3, 12]
      interval_cases mp <;>
        (rw [show m = _ from hm] <;> unfold maxDay <;> norm_num <;> omega)
    · -- the round trip back to the day number
      rw [show m - 3 = mp by omega]
      have e2 : Y / 400 = era := by omega
      rw [show Y - Y / 400 * 400 = yoe by omega]
      omega
  · -- January and February: m = mp - 9 ∈ [1, 2], civil year is y + 1
    rw [if_neg hs] at hm
    have hm2 : m ≤ 2 := by omega
    have hm3 : ¬ (2 < m) := by omega
    rw [if_pos hm2] at hY
    rw [if_pos hm2, if_neg hm3]
    refine ⟨by omega, by omega, by omega, ?_, ?_⟩
    swap
    · -- the round trip back to the day number
      rw [show m + 9 = mp by omega, show Y - 1 = y by omega]
      have e2 : y / 400 = era := by omega
      rw [show y - y / 400 * 400 = yoe by omega]
      omega
    interval_cases mp
    · -- mp = 10 : January
      rw [show m = _ from hm]
      unfold maxDay
      norm_num
      omega
    · -- mp = 11 : February, month length decided by the leap rule
      rw [show m = _ from hm]
      unfold maxDay
      norm_num
      split_ifs <;> omega

/-- The day argument of `daysFromCivil` is a plain offset from the first of
the month. -/
theorem daysFromCivil_day_shift (y m d : Int) :
    daysFromCivil y m d = daysFromCivil y m 1 + (d - 1) := by
  unfold daysFromCivil
  dsimp only
  split_ifs <;> omega

/-- Normal form of `timeDate` when the month is already in `[1,12]`. -/
theorem timeDate_unix (y mo d hh mi ss off : Int) (h1 : 1 ≤ mo) (h2 : mo ≤ 12) :
    timeDate y mo d hh mi ss off =
      ⟨86400 * (daysFromCivil y mo 1 + (d - 1)) + 3600 * hh + 60 * mi + ss - off, off⟩ := by
  unfold timeDate
  dsimp only
  rw [show (mo - 1) / 12 = 0 by omega, show (mo - 1) % 12 = mo - 1 by omega]
  norm_num

/-- Every output of `civilFromDays` is a calendar-valid triple — month in
`[1,12]`, day in `[1, maxDay]` — and `daysFromCivil` maps it back to the day
number it came from. -/
theorem civilFromDays_spec (k : Int) :
    1 ≤ (civilFromDays k).month ∧ (civilFromDays k).month ≤ 12 ∧
    1 ≤ (civilFromDays k).day ∧
    (civilFromDays k).day ≤ maxDay (civilFromDays k).year (civilFromDays k).month ∧
    daysFromCivil (civilFromDays k).year (civilFromDays k).month (civilFromDays k).day = k :=
  civilCore k _ _ _ _ _ _ _ _ _ _ rfl rfl rfl rfl rfl rfl rfl rfl rfl rfl rfl

/-- `IsValid` is the round trip through midnight UTC, as a proposition. -/
theorem isValid_iff (d : Date) : d.IsValid = true ↔ DateOf d.In = d := by
  simp only [Date.IsValid, beq_iff_eq]

/-- What validity gives: in-range fields, a midnight-UTC timestamp that is
exactly `86400 ·` the date's day number, and the day number converting back
to the date itself. -/
theorem valid_spec (d : Date) (h : d.IsValid = true) :
    1 ≤ d.month ∧ d.month ≤ 12 ∧ 1 ≤ d.day ∧ d.day ≤ maxDay d.year d.month ∧
    d.In = ⟨86400 * daysFromCivil d.year d.month d.day, 0⟩ ∧
    civilFromDays (daysFromCivil d.year d.month d.day) = d := by
  rw [isValid_iff] at h
  have hDo : DateOf d.In = civilFromDays ((d.In.unix + d.In.offset) / 86400) := rfl
  have hs := civilFromDays_spec ((d.In.unix + d.In.offset) / 86400)
  rw [← hDo, h] at hs
  obtain ⟨b1, b2, b3, b4, b5⟩ := hs
  have hIn : d.In = ⟨86400 * daysFromCivil d.year d.month d.day, 0⟩ := by
    have hrfl : d.In = timeDate d.year d.month d.day 0 0 0 0 := rfl
    rw [hrfl, timeDate_unix d.year d.month d.day 0 0 0 0 b1 b2,
      daysFromCivil_day_shift d.year d.month d.day]
    simp only [GoTime.mk.injEq]
    refine ⟨by ring, by trivial⟩
  refine ⟨b1, b2, b3, b4, hIn, ?_⟩
  rw [b5, ← hDo]
  exact h

/-- Every output of `civilFromDays` is a valid date. -/
theorem civilFromDays_isValid (W : Int) : (civilFromDays W).IsValid = true := by
  obtain ⟨b1, b2, b3, b4, b5⟩ := civilFromDays_spec W
  rw [isValid_iff]
  have hIn : (civilFromDays W).In = ⟨86400 * W, 0⟩ := by
    have hrfl : (civilFromDays W).In
        = timeDate (civilFromDays W).year (civilFromDays W).month (civilFromDays W).day 0 0 0 0 :=
      rfl
    rw [hrfl, timeDate_unix _ _ _ 0 0 0 0 b1 b2,
      ← daysFromCivil_day_shift (civilFromDays W).year (civilFromDays W).month (civilFromDays W).day,
      b5]
    simp only [GoTime.mk.injEq]
    refine ⟨by ring, by trivial⟩
  unfold DateOf
  rw [hIn]
  dsimp only
  rw [show (86400 * W + 0) / 86400 = W by omega]

/-- `AddDays` on a valid date is translation of its day number. -/
theorem valid_AddDays (d : Date) (h : d.IsValid = true) (n : Int) :
    d.AddDays n = civilFromDays (daysFromCivil d.year d.month d.day + n) := by
  obtain ⟨b1, b2, b3, b4, hIn, hcv⟩ := valid_spec d h
  unfold Date.AddDays GoTime.addDays
  dsimp only
  rw [hIn]
  dsimp only
  unfold DateOf
  dsimp only
  rw [show (86400 * daysFromCivil d.year d.month d.day + 0) / 86400
      = daysFromCivil d.year d.month d.day by omega]
  rw [show (86400 * daysFromCivil d.year d.month d.day + 0) % 86400 = 0 by omega]
  rw [hcv]
  norm_num
  rw [timeDate_unix d.year d.month (d.day + n) 0 0 0 0 b1 b2]
  dsimp only
  rw [show (86400 * (daysFromCivil d.year d.month 1 + (d.day + n - 1)) + 3600 * 0 + 60 * 0 + 0 - 0 + 0)
        / 86400 = daysFromCivil d.year d.month 1 + (d.day + n - 1) by omega]
  rw [daysFromCivil_day_shift d.year d.month d.day]
  congr 1
  ring

/-- `Before` as a proposition: strict lexicographic order on
(year, month, day). -/
theorem Before_iff (a b : Date) :
    a.Before b = true ↔
      (a.year < b.year ∨ (a.year = b.year ∧
        (a.month < b.month ∨ (a.month = b.month ∧ a.day < b.day)))) := by
  unfold Date.Before
  split_ifs with h1 h2 <;> simp only [decide_eq_true_eq] <;> omega

/-- `On` as a proposition: structural equality. -/
theorem On_iff (a b : Date) : a.On b = true ↔ a = b := by
  simp only [Date.On, beq_iff_eq]

/-- `Before` on explicit fields. -/
theorem Before_fields (y1 m1 dd1 y2 m2 dd2 : Int) :
    Date.Before ⟨y1, m1, dd1⟩ ⟨y2, m2, dd2⟩ = true ↔
      (y1 < y2 ∨ (y1 = y2 ∧ (m1 < m2 ∨ (m1 = m2 ∧ dd1 < dd2)))) :=
  Before_iff ⟨y1, m1, dd1⟩ ⟨y2, m2, dd2⟩

/-- `On` on explicit fields. -/
theorem On_fields (y1 m1 dd1 y2 m2 dd2 : Int) :
    Date.On ⟨y1, m1, dd1⟩ ⟨y2, m2, dd2⟩ = true ↔ (y1 = y2 ∧ m1 = m2 ∧ dd1 = dd2) := by
  rw [On_iff]
  simp only [Date.mk.injEq]

/-- `digitChar` produces the expected code point. -/
theorem digitChar_toNat (k : Nat) (h : k < 10) : (digitChar k).toNat = 48 + k := by
  interval_cases k <;> decide

/-- `digitChar` produces an ASCII digit. -/
theorem isDigitCh_digitChar (k : Nat) (h : k < 10) : isDigitCh (digitChar k) = true := by
  interval_cases k <;> decide

/-- `digitVal` inverts `digitChar`. -/
theorem digitVal_digitChar (k : Nat) (h : k < 10) : digitVal (digitChar k) = (k : Int) := by
  interval_cases k <;> decide

/-- Appending a final digit multiplies the value by ten. -/
theorem digitsValNat_append_one (l : List Char) (c : Char) :
    digitsValNat (l ++ [c]) = digitsValNat l * 10 + (c.toNat - 48) := by
  unfold digitsValNat
  rw [List.foldl_append]
  simp only [List.foldl_cons, List.foldl_nil]

/-- Leading zeros do not change the value of a digit string. -/
theorem digitsValNat_replicate_zero (k : Nat) (l : List Char) :
    digitsValNat (List.replicate k '0' ++ l) = digitsValNat l := by
  induction k with
  | zero => rfl
  | succ k ih =>
    rw [List.replicate_succ, List.cons_append]
    unfold digitsValNat at ih ⊢
    simpa using ih

/-- One step of the fuelled digit extractor, for positive fuel. -/
theorem natDigitsAux_pos (fuel n : Nat) (acc : List Char) (h : 0 < fuel) :
    natDigitsAux fuel n acc =
      if n < 10 then digitChar n :: acc
      else natDigitsAux (fuel - 1) (n / 10) (digitChar (n % 10) :: acc) := by
  obtain ⟨f, rfl⟩ : ∃ f, fuel = f + 1 := ⟨fuel - 1, by omega⟩
  simp only [natDigitsAux, Nat.add_sub_cancel]

/-- A one-digit number prints as its digit. -/
theorem natDigits_small (n : Nat) (h : n < 10) : natDigits n = [digitChar n] := by
  unfold natDigits
  rw [natDigitsAux_pos _ _ _ (by omega), if_pos h]

/-- Any sufficient fuel computes the same digit string. -/
theorem natDigitsAux_irrel (n : Nat) : ∀ (fuel : Nat) (acc : List Char),
    0 < fuel → n < 10 ^ fuel → natDigitsAux fuel n acc = natDigits n ++ acc := by
  induction n using Nat.strong_induction_on with
  | _ n ih =>
    intro fuel acc hf h
    by_cases h10 : n < 10
    · rw [natDigitsAux_pos _ _ _ hf, if_pos h10, natDigits_small n h10]
      rfl
    · have hf2 : 2 ≤ fuel := by
        rcases fuel with _ | _ | f
        · omega
        · norm_num at h
          omega
        · omega
      have hdivbound : n / 10 < 10 ^ (fuel - 1) := by
        rw [Nat.div_lt_iff_lt_mul (by norm_num)]
        calc n < 10 ^ fuel := h
        _ = 10 ^ (fuel - 1) * 10 := by
            rw [← pow_succ]
            congr 1
            omega
      have hn : natDigits n = natDigits (n / 10) ++ [digitChar (n % 10)] := by
        conv_lhs => unfold natDigits
        rw [natDigitsAux_pos _ _ _ (by omega), if_neg h10]
        have hb : n / 10 < 10 ^ (n + 1 - 1) := by
          have h1 : n < 10 ^ n := Nat.lt_pow_self (by norm_num) n
          have h2 : n + 1 - 1 = n := by omega
          rw [h2]
          omega
        rw [ih (n / 10) (by omega) (n + 1 - 1) _ (by omega) hb]
      rw [natDigitsAux_pos _ _ _ hf, if_neg h10,
        ih (n / 10) (by omega) (fuel - 1) _ (by omega) hdivbound, hn,
        List.append_assoc]
      rfl

/-- The printing recursion: last digit split off. -/
theorem natDigits_step (n : Nat) (h : 10 ≤ n) :
    natDigits n = natDigits (n / 10) ++ [digitChar (n % 10)] := by
  conv_lhs => unfold natDigits
  rw [natDigitsAux_pos _ _ _ (by omega), if_neg (by omega)]
  have hb : n / 10 < 10 ^ (n + 1 - 1) := by
    have h1 : n < 10 ^ n := Nat.lt_pow_self (by norm_num) n
    have h2 : n + 1 - 1 = n := by omega
    rw [h2]
    omega
  rw [natDigitsAux_irrel (n / 10) (n + 1 - 1) _ (by omega) hb]

/-- The digit string of `n` is nonempty, all ASCII digits, and evaluates
back to `n`. -/
theorem natDigits_spec (n : Nat) :
    natDigits n ≠ [] ∧ (∀ c ∈ natDigits n, isDigitCh c = true) ∧
      digitsValNat (natDigits n) = n := by
  induction n using Nat.strong_induction_on with
  | _ n ih =>
    by_cases h10 : n < 10
    · rw [natDigits_small n h10]
      refine ⟨by simp, ?_, ?_⟩
      · intro c hc
        rw [List.mem_singleton] at hc
        subst hc
        exact isDigitCh_digitChar n h10
      · unfold digitsValNat
        simp only [List.foldl_cons, List.foldl_nil, Nat.zero_mul, Nat.zero_add]
        rw [digitChar_toNat n h10]
        omega
    · obtain ⟨ih1, ih2, ih3⟩ := ih (n / 10) (by omega)
      rw [natDigits_step n (by omega)]
      refine ⟨by simp, ?_, ?_⟩
      · intro c hc
        rcases List.mem_append.mp hc with hc | hc
        · exact ih2 c hc
        · rw [List.mem_singleton] at hc
          subst hc
          exact isDigitCh_digitChar _ (by omega)
      · rw [digitsValNat_append_one, ih3, digitChar_toNat _ (by omega)]
        omega

/-- `n < 10^k` prints in at most `k` digits. -/
theorem natDigits_len_le (n : Nat) : ∀ k : Nat, 0 < k → n < 10 ^ k →
    (natDigits n).length ≤ k := by
  induction n using Nat.strong_induction_on with
  | _ n ih =>
    intro k hk h
    by_cases h10 : n < 10
    · rw [natDigits_small n h10]
      simpa using hk
    · have hk2 : 2 ≤ k := by
        rcases k with _ | _ | k
        · omega
        · norm_num at h
          omega
        · omega
      have hdivbound : n / 10 < 10 ^ (k - 1) := by
        rw [Nat.div_lt_iff_lt_mul (by norm_num)]
        calc n < 10 ^ k := h
        _ = 10 ^ (k - 1) * 10 := by
            rw [← pow_succ]
            congr 1
            omega
      have := ih (n / 10) (by omega) (k - 1) (by omega) hdivbound
      rw [natDigits_step n (by omega)]
      rw [List.length_append, List.length_singleton]
      omega

/-- `goZeroPad` of a nonnegative number is zeros followed by the digits. -/
theorem goZeroPad_nonneg (w : Nat) (n : Int) (h : 0 ≤ n) :
    goZeroPad w n
      = List.replicate (w - (natDigits n.toNat).length) '0' ++ natDigits n.toNat := by
  unfold goZeroPad padLeftZeros
  rw [if_neg (by omega)]

/-- The padded decimal rendering of a nonnegative number: all digits, at
least the requested width, exact value. -/
theorem goZeroPad_spec (w : Nat) (n : Int) (h : 0 ≤ n) :
    (∀ c ∈ goZeroPad w n, isDigitCh c = true) ∧
    w ≤ (goZeroPad w n).length ∧
    (digitsValNat (goZeroPad w n) : Int) = n := by
  rw [goZeroPad_nonneg w n h]
  obtain ⟨h1, h2, h3⟩ := natDigits_spec n.toNat
  refine ⟨?_, ?_, ?_⟩
  · intro c hc
    rcases List.mem_append.mp hc with hc | hc
    · rw [List.eq_of_mem_replicate hc]
      decide
    · exact h2 c hc
  · rw [List.length_append, List.length_replicate]
    omega
  · rw [digitsValNat_replicate_zero, h3]
    omega

/-- `%04d` of `0 ≤ y ≤ 9999` in explicit four-digit form. -/
theorem goZeroPad4_digits (y : Int) (h0 : 0 ≤ y) (h9 : y ≤ 9999) :
    goZeroPad 4 y = [digitChar (y.toNat / 1000), digitChar (y.toNat / 100 % 10),
      digitChar (y.toNat / 10 % 10), digitChar (y.toNat % 10)] := by
  rw [goZeroPad_nonneg 4 y h0]
  have hz : ('0' : Char) = digitChar 0 := by decide
  rcases Nat.lt_or_ge y.toNat 10 with h | h
  · rw [natDigits_small _ h,
      show y.toNat / 1000 = 0 by omega, show y.toNat / 100 % 10 = 0 by omega,
      show y.toNat / 10 % 10 = 0 by omega, show y.toNat % 10 = y.toNat by omega, hz]
    rfl
  rcases Nat.lt_or_ge y.toNat 100 with h2 | h2
  · rw [natDigits_step _ h, natDigits_small _ (by omega),
      show y.toNat / 1000 = 0 by omega, show y.toNat / 100 % 10 = 0 by omega,
      show y.toNat / 10 % 10 = y.toNat / 10 by omega, hz]
    rfl
  rcases Nat.lt_or_ge y.toNat 1000 with h3 | h3
  · rw [natDigits_step _ h, natDigits_step _ (by omega), natDigits_small _ (by omega),
      show y.toNat / 10 / 10 = y.toNat / 100 by omega,
      show y.toNat / 1000 = 0 by omega, show y.toNat / 100 % 10 = y.toNat / 100 by omega, hz]
    rfl
  · rw [natDigits_step _ h, natDigits_step _ (by omega), natDigits_step _ (by omega),
      natDigits_small _ (by omega),
      show y.toNat / 10 / 10 / 10 = y.toNat / 1000 by omega,
      show y.toNat / 10 / 10 % 10 = y.toNat / 100 % 10 by omega]
    rfl

/-- `%02d` of `0 ≤ m ≤ 99` in explicit two-digit form. -/
theorem goZeroPad2_digits (m : Int) (h0 : 0 ≤ m) (h9 : m ≤ 99) :
    goZeroPad 2 m = [digitChar (m.toNat / 10), digitChar (m.toNat % 10)] := by
  rw [goZeroPad_nonneg 2 m h0]
  have hz : ('0' : Char) = digitChar 0 := by decide
  rcases Nat.lt_or_ge m.toNat 10 with h | h
  · rw [natDigits_small _ h,
      show m.toNat / 10 = 0 by omega, show m.toNat % 10 = m.toNat by omega, hz]
    rfl
  · rw [natDigits_step _ h, natDigits_small _ (by omega)]
    rfl

/-- The canonical string of a date with bounded nonnegative fields, written
out character by character. -/
theorem String_digits (d : Date) (h0 : 0 ≤ d.year) (h9 : d.year ≤ 9999)
    (hm1 : 0 ≤ d.month) (hm2 : d.month ≤ 99) (hd1 : 0 ≤ d.day) (hd2 : d.day ≤ 99) :
    d.String = [digitChar (d.year.toNat / 1000), digitChar (d.year.toNat / 100 % 10),
      digitChar (d.year.toNat / 10 % 10), digitChar (d.year.toNat % 10), '-',
      digitChar (d.month.toNat / 10), digitChar (d.month.toNat % 10), '-',
      digitChar (d.day.toNat / 10), digitChar (d.day.toNat % 10)] := by
  unfold Date.String
  rw [goZeroPad4_digits _ h0 h9, goZeroPad2_digits _ hm1 hm2, goZeroPad2_digits _ hd1 hd2]
  rfl

/-- For a month in range, the table never exceeds 31. -/
theorem maxDay_le_31 (y m : Int) (h1 : 1 ≤ m) (h2 : m ≤ 12) : maxDay y m ≤ 31 := by
  unfold maxDay
  interval_cases m <;> norm_num <;> split_ifs <;> omega

/-- The Go `time` month-length equals the repository's table on months in
range. -/
theorem timeDaysIn_eq_maxDay (y m : Int) (h1 : 1 ≤ m) (h2 : m ≤ 12) :
    timeDaysIn m y = maxDay y m := by
  unfold timeDaysIn maxDay timeIsLeap
  interval_cases m <;>
    norm_num <;>
    (try split_ifs) <;>
    omega

/-- The strict layout parses the canonical string of a valid date with year
in `[0, 9999]` back to the same triple. -/
theorem parse_String_of_valid (d : Date) (hv : d.IsValid = true)
    (h0 : 0 ≤ d.year) (h9 : d.year ≤ 9999) :
    parseLayoutDate d.String = .ok (timeDate d.year d.month d.day 0 0 0 0) := by
  obtain ⟨b1, b2, b3, b4, hIn, hcv⟩ := valid_spec d hv
  have h31 : d.day ≤ 31 := b4.trans (maxDay_le_31 d.year d.month b1 b2)
  rw [String_digits d h0 h9 (by omega) (by omega) (by omega) (by omega)]
  have hy1 : d.year.toNat / 1000 < 10 := by omega
  have hy2 : d.year.toNat / 100 % 10 < 10 := by omega
  have hy3 : d.year.toNat / 10 % 10 < 10 := by omega
  have hy4 : d.year.toNat % 10 < 10 := by omega
  have hmd1 : d.month.toNat / 10 < 10 := by omega
  have hmd2 : d.month.toNat % 10 < 10 := by omega
  have hdd1 : d.day.toNat / 10 < 10 := by omega
  have hdd2 : d.day.toNat % 10 < 10 := by omega
  have hpy : parseYear4 [digitChar (d.year.toNat / 1000), digitChar (d.year.toNat / 100 % 10),
      digitChar (d.year.toNat / 10 % 10), digitChar (d.year.toNat % 10), '-',
      digitChar (d.month.toNat / 10), digitChar (d.month.toNat % 10), '-',
      digitChar (d.day.toNat / 10), digitChar (d.day.toNat % 10)]
      = some (d.year, ['-', digitChar (d.month.toNat / 10), digitChar (d.month.toNat % 10), '-',
          digitChar (d.day.toNat / 10), digitChar (d.day.toNat % 10)]) := by
    unfold parseYear4
    dsimp only
    rw [isDigitCh_digitChar _ hy1, isDigitCh_digitChar _ hy2, isDigitCh_digitChar _ hy3,
      isDigitCh_digitChar _ hy4]
    simp only [Bool.and_self]
    rw [if_pos trivial]
    rw [digitVal_digitChar _ hy1, digitVal_digitChar _ hy2, digitVal_digitChar _ hy3,
      digitVal_digitChar _ hy4]
    simp only [Option.some.injEq, Prod.mk.injEq]
    exact ⟨by omega, trivial⟩
  have hdash1 : expectChar '-' ['-', digitChar (d.month.toNat / 10),
      digitChar (d.month.toNat % 10), '-', digitChar (d.day.toNat / 10),
      digitChar (d.day.toNat % 10)]
      = some [digitChar (d.month.toNat / 10), digitChar (d.month.toNat % 10), '-',
          digitChar (d.day.toNat / 10), digitChar (d.day.toNat % 10)] := by
    simp [expectChar]
  have hgm : getnum2 [digitChar (d.month.toNat / 10), digitChar (d.month.toNat % 10), '-',
      digitChar (d.day.toNat / 10), digitChar (d.day.toNat % 10)]
      = some (d.month, ['-', digitChar (d.day.toNat / 10), digitChar (d.day.toNat % 10)]) := by
    unfold getnum2
    dsimp only
    rw [isDigitCh_digitChar _ hmd1, isDigitCh_digitChar _ hmd2]
    simp only [Bool.and_self]
    rw [if_pos trivial]
    rw [digitVal_digitChar _ hmd1, digitVal_digitChar _ hmd2]
    simp only [Option.some.injEq, Prod.mk.injEq]
    exact ⟨by omega, trivial⟩
  have hdash2 : expectChar '-' ['-', digitChar (d.day.toNat / 10), digitChar (d.day.toNat % 10)]
      = some [digitChar (d.day.toNat / 10), digitChar (d.day.toNat % 10)] := by
    simp [expectChar]
  have hgd : getnum2 [digitChar (d.day.toNat / 10), digitChar (d.day.toNat % 10)]
      = some (d.day, []) := by
    unfold getnum2
    dsimp only
    rw [isDigitCh_digitChar _ hdd1, isDigitCh_digitChar _ hdd2]
    simp only [Bool.and_self]
    rw [if_pos trivial]
    rw [digitVal_digitChar _ hdd1, digitVal_digitChar _ hdd2]
    simp only [Option.some.injEq, Prod.mk.injEq]
    exact ⟨by omega, trivial⟩
  unfold parseLayoutDate
  rw [hpy]
  dsimp only
  rw [hdash1]
  dsimp only
  rw [hgm]
  dsimp only
  rw [if_neg (by omega : ¬ (d.month < 1 ∨ 12 < d.month))]
  rw [hdash2]
  dsimp only
  rw [hgd]
  dsimp only
  rw [if_neg (by simp : ¬ (([] : List Char) ≠ []))]
  rw [timeDaysIn_eq_maxDay d.year d.month b1 b2]
  rw [if_neg (by omega : ¬ (d.day < 1 ∨ maxDay d.year d.month < d.day))]

/-- `ParseDate` round-trips the canonical string of a valid date with year
in `[0, 9999]`. -/
theorem ParseDate_String_of_valid (d : Date) (hv : d.IsValid = true)
    (h0 : 0 ≤ d.year) (h9 : d.year ≤ 9999) :
    ParseDate d.String = (d, none) := by
  unfold ParseDate
  rw [parse_String_of_valid d hv h0 h9]
  dsimp only
  have hd : DateOf (timeDate d.year d.month d.day 0 0 0 0) = d := (isValid_iff d).mp hv
  rw [hd]

/-- When both layouts fail, the date half of `ParseDate`'s result is the
zero value. -/
theorem ParseDate_error_val (s : List Char) :
    (ParseDate s).2.isSome = true → (ParseDate s).1 = ⟨0, 0, 0⟩ := by
  unfold ParseDate
  cases h1 : parseLayoutDate s with
  | ok t => simp
  | error e =>
    cases h2 : parseLayoutTimestamp s with
    | ok t => simp
    | error f => simp

/-- Characters in the window `[45, 57]` (hyphen, dot, slash, digits) are not
escaped by the JSON encoder. -/
theorem jsonEscapeChar_plain (c : Char) (h : 45 ≤ c.toNat ∧ c.toNat ≤ 57) :
    jsonEscapeChar c = [c] := by
  have e1 : ¬ c = '"' := by
    intro hh
    have h34 : c.toNat = 34 := by subst hh; decide
    omega
  have e2 : ¬ c = '\\' := by
    intro hh
    have h92 : c.toNat = 92 := by subst hh; decide
    omega
  have e3 : ¬ c = '\n' := by
    intro hh
    have h10 : c.toNat = 10 := by subst hh; decide
    omega
  have e4 : ¬ c = '\r' := by
    intro hh
    have h13 : c.toNat = 13 := by subst hh; decide
    omega
  have e5 : ¬ c = '\t' := by
    intro hh
    have h9 : c.toNat = 9 := by subst hh; decide
    omega
  have e6 : ¬ (c = '<' ∨ c = '>' ∨ c = '&' ∨ c.toNat < 32) := by
    intro hh
    rcases hh with hh | hh | hh | hh
    · have h60 : c.toNat = 60 := by subst hh; decide
      omega
    · have h62 : c.toNat = 62 := by subst hh; decide
      omega
    · have h38 : c.toNat = 38 := by subst hh; decide
      omega
    · omega
  have e7 : ¬ (c.toNat = 8232 ∨ c.toNat = 8233) := by omega
  unfold jsonEscapeChar
  rw [if_neg e1, if_neg e2, if_neg e3, if_neg e4, if_neg e5, if_neg e6, if_neg e7]

/-- Mapping the escaper over an unescaped string is the identity. -/
theorem jsonFlatten_plain (sL : List Char) (h : ∀ c ∈ sL, 45 ≤ c.toNat ∧ c.toNat ≤ 57) :
    (sL.map jsonEscapeChar).flatten = sL := by
  induction sL with
  | nil => rfl
  | cons c tl ih =>
    rw [List.map_cons, List.flatten_cons, jsonEscapeChar_plain c (h c (by simp)),
      ih (fun x hx => h x (by simp [hx]))]
    rfl

/-- Quoting an unescaped string just wraps it in quotes. -/
theorem jsonQuote_plain (sL : List Char) (h : ∀ c ∈ sL, 45 ≤ c.toNat ∧ c.toNat ≤ 57) :
    jsonQuote sL = '"' :: sL ++ ['"'] := by
  unfold jsonQuote
  rw [jsonFlatten_plain sL h]

/-- `skipWhite` keeps a string whose head is not whitespace. -/
theorem skipWhite_not_white (c : Char) (l : List Char) (h : isJSONWhite c = false) :
    skipWhite (c :: l) = c :: l := by
  unfold skipWhite
  rw [h]
  rfl

/-- Scanning the body of a quoted unescaped string. -/
theorem jsonStringBody_plain (sL : List Char) : ∀ (acc rest : List Char),
    (∀ c ∈ sL, 45 ≤ c.toNat ∧ c.toNat ≤ 57) →
    jsonStringBody (sL ++ '"' :: rest) acc = some (acc.reverse ++ sL, rest) := by
  induction sL with
  | nil =>
    intro acc rest h
    rw [List.nil_append]
    unfold jsonStringBody
    rw [if_pos rfl]
    simp
  | cons c tl ih =>
    intro acc rest h
    have hc := h c (by simp)
    rw [List.cons_append]
    unfold jsonStringBody
    rw [if_neg (show ¬ c = '"' by
        intro hh
        have h34 : c.toNat = 34 := by subst hh; decide
        omega),
      if_neg (show ¬ c = '\\' by
        intro hh
        have h92 : c.toNat = 92 := by subst hh; decide
        omega),
      if_neg (show ¬ c.toNat < 32 by omega)]
    rw [ih (c :: acc) rest (fun x hx => h x (by simp [hx]))]
    simp [List.reverse_cons, List.append_assoc]

/-- Un-marshalling the marshalled form of an unescaped string gives it
back. -/
theorem jsonUnquote_quote_plain (sL : List Char)
    (h : ∀ c ∈ sL, 45 ≤ c.toNat ∧ c.toNat ≤ 57) :
    jsonUnquote (jsonQuote sL) = some sL := by
  rw [jsonQuote_plain sL h]
  unfold jsonUnquote
  rw [List.cons_append]
  have hsw : skipWhite ('"' :: (sL ++ ['"'])) = '"' :: (sL ++ ['"']) :=
    skipWhite_not_white '"' (sL ++ ['"']) (by decide)
  rw [hsw]
  rw [show expectChar '"' ('"' :: (sL ++ ['"'])) = some (sL ++ ['"']) by simp [expectChar]]
  dsimp only
  rw [jsonStringBody_plain sL [] [] h]
  dsimp only
  rw [show skipWhite [] = [] from rfl]
  rw [if_pos rfl]
  rfl

/-- C1: `isValid(d)` holds iff converting `d` to a timestamp at midnight UTC
and extracting the year/month/day back yields a triple structurally equal to
`d`; in particular it holds for 2000-02-29, 0000-01-01 and (-1)-01-01, and
fails for 2016-02-30, month 0 and month 13. -/
theorem C1_isValid :
    (∀ d : Date, d.IsValid = true ↔ DateOf d.In = d) ∧
    (Date.mk 2000 2 29).IsValid = true ∧
    (Date.mk 0 1 1).IsValid = true ∧
    (Date.mk (-1) 1 1).IsValid = true ∧
    (Date.mk 2016 2 30).IsValid = false ∧
    (Date.mk 1 0 1).IsValid = false ∧
    (Date.mk 2016 13 1).IsValid = false :=
  ⟨isValid_iff, by decide, by decide, by decide, by decide, by decide, by decide⟩

/-- C2: for every valid date `d` and every integer `n`,
`addDays(addDays(d, n), -n) = d`, and `addDays(d, 0) = d`. -/
theorem C2_addDays_inverse (d : Date) (n : Int) (h : d.IsValid = true) :
    (d.AddDays n).AddDays (-n) = d ∧ d.AddDays 0 = d := by
  obtain ⟨_, _, _, _, _, hcv⟩ := valid_spec d h
  constructor
  · rw [valid_AddDays d h n,
      valid_AddDays (civilFromDays (daysFromCivil d.year d.month d.day + n))
        (civilFromDays_isValid _) (-n),
      (civilFromDays_spec (daysFromCivil d.year d.month d.day + n)).2.2.2.2,
      show daysFromCivil d.year d.month d.day + n + -n
        = daysFromCivil d.year d.month d.day by ring]
    exact hcv
  · rw [valid_AddDays d h 0,
      show daysFromCivil d.year d.month d.day + 0
        = daysFromCivil d.year d.month d.day by ring]
    exact hcv

/-- Witness for C2 at a concrete valid date and day count. -/
theorem C2_addDays_inverse_witness :
    ((Date.mk 2014 5 9).AddDays 366).AddDays (-366) = Date.mk 2014 5 9 ∧
      (Date.mk 2014 5 9).AddDays 0 = Date.mk 2014 5 9 :=
  C2_addDays_inverse ⟨2014, 5, 9⟩ 366 (by decide)

/-- C3: for valid dates, `daysSince(d, s)` is the floor of the timestamp
difference divided by 86400 seconds (`/` on `Int` is floor division for this
positive divisor), and `daysSince(addDays(d, n), d) = n` for every integer
`n`. -/
theorem C3_daysSince (d s : Date) (n : Int) (hd : d.IsValid = true)
    (hs : s.IsValid = true) :
    d.DaysSince s = (d.In.unix - s.In.unix) / 86400 ∧
    (d.AddDays n).DaysSince d = n := by
  obtain ⟨_, _, _, _, hdIn, hdcv⟩ := valid_spec d hd
  obtain ⟨_, _, _, _, hsIn, _⟩ := valid_spec s hs
  have key : ∀ a b : Int, Int.tdiv (86400 * a - 86400 * b) 86400 = a - b := by
    intro a b
    rw [show (86400 : Int) * a - 86400 * b = 86400 * (a - b) by ring]
    exact Int.mul_tdiv_cancel_left _ (by norm_num)
  constructor
  · unfold Date.DaysSince
    rw [hdIn, hsIn]
    dsimp only
    rw [key]
    omega
  · have he := valid_AddDays d hd n
    obtain ⟨_, _, _, _, heIn, _⟩ :=
      valid_spec (civilFromDays (daysFromCivil d.year d.month d.day + n))
        (civilFromDays_isValid _)
    rw [(civilFromDays_spec (daysFromCivil d.year d.month d.day + n)).2.2.2.2] at heIn
    unfold Date.DaysSince
    rw [he, heIn, hdIn]
    dsimp only
    rw [key]
    ring

/-- Witness for C3 at concrete valid dates. -/
theorem C3_daysSince_witness :
    (Date.mk 2015 1 1).DaysSince ⟨2014, 12, 31⟩
        = ((Date.mk 2015 1 1).In.unix - (Date.mk 2014 12 31).In.unix) / 86400 ∧
      ((Date.mk 2015 1 1).AddDays 366).DaysSince ⟨2015, 1, 1⟩ = 366 :=
  C3_daysSince ⟨2015, 1, 1⟩ ⟨2014, 12, 31⟩ 366 (by decide) (by decide)

/-- C4: `addMonths(d, n)` lands on the unique month with
`year·12 + (month−1)` shifted by `n` and month back in `[1,12]` (the effect
of the borrowing normalisation of `total = (month−1) + n`), with the
original day clamped into the resulting year/month; `n = 0` is a no-op on a
valid date; and the three examples. -/
theorem C4_addMonths (d : Date) (n : Int) (hv : d.IsValid = true) :
    ((d.AddMonths n).year * 12 + ((d.AddMonths n).month - 1)
        = d.year * 12 + (d.month - 1) + n) ∧
    1 ≤ (d.AddMonths n).month ∧ (d.AddMonths n).month ≤ 12 ∧
    (d.AddMonths n).day = clampDay (d.AddMonths n).year (d.AddMonths n).month d.day ∧
    d.AddMonths 0 = d ∧
    (Date.mk 2014 1 31).AddMonths 1 = ⟨2014, 2, 28⟩ ∧
    (Date.mk 2012 1 31).AddMonths 1 = ⟨2012, 2, 29⟩ ∧
    (Date.mk 2014 1 1).AddMonths (-1) = ⟨2013, 12, 1⟩ := by
  obtain ⟨b1, b2, b3, b4, _, _⟩ := valid_spec d hv
  refine ⟨?_, ?_, ?_, ?_, ?_, ?_, ?_, ?_⟩
  · rw [Date.AddMonths_eq]
    dsimp only
    omega
  · rw [Date.AddMonths_eq]
    dsimp only
    omega
  · rw [Date.AddMonths_eq]
    dsimp only
    omega
  · rw [Date.AddMonths_eq]
  · rw [Date.AddMonths_eq]
    rw [show d.month - 1 + 0 = d.month - 1 by ring]
    rw [show (d.month - 1) / 12 = 0 by omega, show (d.month - 1) % 12 = d.month - 1 by omega]
    rw [show d.year + 0 = d.year by ring, show d.month - 1 + 1 = d.month by ring]
    rw [show clampDay d.year d.month d.day = d.day from by
      unfold clampDay
      rw [if_neg (by omega)]]
  · rw [Date.AddMonths_eq]
    decide
  · rw [Date.AddMonths_eq]
    decide
  · rw [Date.AddMonths_eq]
    decide

/-- Witness for C4 at a concrete valid date and month count. -/
theorem C4_addMonths_witness :
    (Date.mk 2014 1 31).AddMonths 0 = Date.mk 2014 1 31 ∧
      (Date.mk 2014 1 31).AddMonths 1 = ⟨2014, 2, 28⟩ :=
  ⟨(C4_addMonths ⟨2014, 1, 31⟩ 1 (by decide)).2.2.2.2.1,
   (C4_addMonths ⟨2014, 1, 31⟩ 1 (by decide)).2.2.2.2.2.1⟩

/-- C9: on all dates, valid or not, exactly one of `before`, `after`, `on`
holds, `beforeOrOn = before ∨ on` and `afterOrOn = after ∨ on`. -/
theorem C9_comparison (d1 d2 : Date) :
    ((d1.Before d2 = true ∧ d1.After d2 = false ∧ d1.On d2 = false) ∨
     (d1.Before d2 = false ∧ d1.After d2 = true ∧ d1.On d2 = false) ∨
     (d1.Before d2 = false ∧ d1.After d2 = false ∧ d1.On d2 = true)) ∧
    d1.BeforeOrOn d2 = (d1.Before d2 || d1.On d2) ∧
    d1.AfterOrOn d2 = (d1.After d2 || d1.On d2) := by
  obtain ⟨y1, m1, dd1⟩ := d1
  obtain ⟨y2, m2, dd2⟩ := d2
  have hB := Before_fields y1 m1 dd1 y2 m2 dd2
  have hB2 := Before_fields y2 m2 dd2 y1 m1 dd1
  have hO := On_fields y1 m1 dd1 y2 m2 dd2
  have hA : Date.After ⟨y1, m1, dd1⟩ ⟨y2, m2, dd2⟩
      = Date.Before ⟨y2, m2, dd2⟩ ⟨y1, m1, dd1⟩ := rfl
  refine ⟨?_, Bool.or_comm _ _, Bool.or_comm _ _⟩
  by_cases h1 : Date.Before ⟨y1, m1, dd1⟩ ⟨y2, m2, dd2⟩ = true
  · refine Or.inl ⟨h1, ?_, ?_⟩
    · rw [hA, Bool.eq_false_iff]
      intro hc
      rw [hB2] at hc
      rw [hB] at h1
      omega
    · rw [Bool.eq_false_iff]
      intro hc
      rw [hO] at hc
      rw [hB] at h1
      omega
  · by_cases h2 : Date.On ⟨y1, m1, dd1⟩ ⟨y2, m2, dd2⟩ = true
    · refine Or.inr (Or.inr ⟨Bool.eq_false_iff.mpr h1, ?_, h2⟩)
      rw [hA, Bool.eq_false_iff]
      intro hc
      rw [hB2] at hc
      rw [hO] at h2
      omega
    · refine Or.inr (Or.inl ⟨Bool.eq_false_iff.mpr h1, ?_, Bool.eq_false_iff.mpr h2⟩)
      rw [hA, hB2]
      rw [hB] at h1
      rw [hO] at h2
      omega

/-- C10: on a date whose month field is outside 1..12 the month-length table
falls through to `-1`, so `lastOfMonth` is `-1` and `setDayClamped` with any
nonnegative day writes a day field of `-1`. -/
theorem C10_invalidMonth (d : Date) (day : Int) (h : d.month < 1 ∨ 12 < d.month) :
    d.LastOfMonth = -1 ∧ (0 ≤ day → (d.SetDayClamped day).day = -1) := by
  have hm : maxDay d.year d.month = -1 := by
    unfold maxDay
    rw [if_neg (by omega : ¬ d.month = 1), if_neg (by omega : ¬ d.month = 2),
      if_neg (by omega : ¬ d.month = 3), if_neg (by omega : ¬ d.month = 4),
      if_neg (by omega : ¬ d.month = 5), if_neg (by omega : ¬ d.month = 6),
      if_neg (by omega : ¬ d.month = 7), if_neg (by omega : ¬ d.month = 8),
      if_neg (by omega : ¬ d.month = 9), if_neg (by omega : ¬ d.month = 10),
      if_neg (by omega : ¬ d.month = 11), if_neg (by omega : ¬ d.month = 12)]
  refine ⟨hm, ?_⟩
  intro h0
  show clampDay d.year d.month day = -1
  unfold clampDay
  rw [hm, if_pos (by omega)]

/-- C5: `ParseDate` first attempts the strict `YYYY-MM-DD` parse; on its
failure it attempts the full-timestamp parse keeping only the date portion;
if both fail the returned error is the strict attempt's (original) failure;
with the examples of the spec. -/
theorem C5_parseDate :
    (∀ s t, parseLayoutDate s = .ok t → ParseDate s = (DateOf t, none)) ∧
    (∀ s e t, parseLayoutDate s = .error e → parseLayoutTimestamp s = .ok t →
      ParseDate s = (DateOf t, none)) ∧
    (∀ s e f, parseLayoutDate s = .error e → parseLayoutTimestamp s = .error f →
      ParseDate s = (⟨0, 0, 0⟩, some e)) ∧
    ParseDate "2016-01-02".data = (⟨2016, 1, 2⟩, none) ∧
    ParseDate "2016-01-02T23:59:59.999Z".data = (⟨2016, 1, 2⟩, none) ∧
    (ParseDate "".data).2.isSome = true ∧
    (ParseDate "2016-01-02x".data).2.isSome = true ∧
    (ParseDate "999-01-26".data).2.isSome = true := by
  refine ⟨?_, ?_, ?_, by decide, by decide, by decide, by decide, by decide⟩
  · intro s t h
    unfold ParseDate
    rw [h]
  · intro s e t h1 h2
    unfold ParseDate
    rw [h1, h2]
  · intro s e f h1 h2
    unfold ParseDate
    rw [h1, h2]

/-- Witness for C5: the empty string fails both layouts and `ParseDate`
returns the strict layout's error. -/
theorem C5_parseDate_witness :
    ParseDate "".data = (⟨0, 0, 0⟩, some ⟨dateLayout, "".data, cannotParseMsg⟩) :=
  C5_parseDate.2.2.1 "".data ⟨dateLayout, "".data, cannotParseMsg⟩
    ⟨timestampLayout, "".data, cannotParseMsg⟩ rfl rfl

/-- C6 (amended): for a date with nonnegative year and month and day in
`[0, 99]`, `toString` renders the year zero-padded to at least four digits
and never truncated, then a hyphen, the month in exactly two digits, a
hyphen and the day in exactly two digits — ASCII digits only, no timezone
suffix; with the two examples.  (As stated over every `Date` the claim
fails: a month field outside `[0, 99]` does not print in two digits.) -/
theorem C6_toString (d : Date) (h0 : 0 ≤ d.year) (hm1 : 0 ≤ d.month)
    (hm2 : d.month ≤ 99) (hd1 : 0 ≤ d.day) (hd2 : d.day ≤ 99) :
    (∃ ys ms ds : List Char,
      d.String = ys ++ '-' :: ms ++ '-' :: ds ∧
      (∀ c ∈ ys, isDigitCh c = true) ∧ (∀ c ∈ ms, isDigitCh c = true) ∧
      (∀ c ∈ ds, isDigitCh c = true) ∧
      4 ≤ ys.length ∧ ms.length = 2 ∧ ds.length = 2 ∧
      (digitsValNat ys : Int) = d.year ∧ (digitsValNat ms : Int) = d.month ∧
      (digitsValNat ds : Int) = d.day) ∧
    Date.String ⟨2014, 7, 29⟩ = "2014-07-29".data ∧
    Date.String ⟨999, 1, 26⟩ = "0999-01-26".data := by
  refine ⟨⟨goZeroPad 4 d.year, goZeroPad 2 d.month, goZeroPad 2 d.day, rfl,
    (goZeroPad_spec 4 d.year h0).1, (goZeroPad_spec 2 d.month hm1).1,
    (goZeroPad_spec 2 d.day hd1).1, (goZeroPad_spec 4 d.year h0).2.1, ?_, ?_,
    (goZeroPad_spec 4 d.year h0).2.2, (goZeroPad_spec 2 d.month hm1).2.2,
    (goZeroPad_spec 2 d.day hd1).2.2⟩, by decide, by decide⟩
  · rw [goZeroPad2_digits d.month hm1 hm2]
    rfl
  · rw [goZeroPad2_digits d.day hd1 hd2]
    rfl

/-- Counterexample for C6 as stated: month 123 prints in three digits, so
the output of `toString` for a four-digit year is not `YYYY-MM-DD`. -/
theorem C6_toString_counterexample :
    Date.String ⟨2014, 123, 1⟩ = "2014-123-01".data ∧
    (Date.String ⟨2014, 123, 1⟩).length ≠ 10 := by decide

/-- Witness for C6 at a concrete date. -/
theorem C6_toString_witness :
    Date.String ⟨2014, 7, 29⟩ = "2014-07-29".data :=
  (C6_toString ⟨999, 1, 26⟩ (by decide) (by decide) (by decide) (by decide)
    (by decide)).2.1

/-- C7 (amended): structured (JSON) decode of the structured encode of a
valid date yields the date back, provided the year is in `[0, 9999]` (so
that the printed year re-parses); the starting value of the decode target
is irrelevant. -/
theorem C7_json_roundtrip (d d0 : Date) (hv : d.IsValid = true)
    (h0 : 0 ≤ d.year) (h9 : d.year ≤ 9999) :
    d0.UnmarshalJSON (d.MarshalJSON).1 = (d, none) := by
  obtain ⟨b1, b2, b3, b4, _, _⟩ := valid_spec d hv
  have h31 : d.day ≤ 31 := b4.trans (maxDay_le_31 d.year d.month b1 b2)
  have hy1 : d.year.toNat / 1000 < 10 := by omega
  have hy2 : d.year.toNat / 100 % 10 < 10 := by omega
  have hy3 : d.year.toNat / 10 % 10 < 10 := by omega
  have hy4 : d.year.toNat % 10 < 10 := by omega
  have hmd1 : d.month.toNat / 10 < 10 := by omega
  have hmd2 : d.month.toNat % 10 < 10 := by omega
  have hdd1 : d.day.toNat / 10 < 10 := by omega
  have hdd2 : d.day.toNat % 10 < 10 := by omega
  have hchars : ∀ c ∈ d.String, 45 ≤ c.toNat ∧ c.toNat ≤ 57 := by
    rw [String_digits d h0 h9 (by omega) (by omega) (by omega) (by omega)]
    intro c hc
    simp only [List.mem_cons, List.not_mem_nil, or_false] at hc
    rcases hc with rfl | rfl | rfl | rfl | rfl | rfl | rfl | rfl | rfl | rfl
    · rw [digitChar_toNat _ hy1]
      omega
    · rw [digitChar_toNat _ hy2]
      omega
    · rw [digitChar_toNat _ hy3]
      omega
    · rw [digitChar_toNat _ hy4]
      omega
    · decide
    · rw [digitChar_toNat _ hmd1]
      omega
    · rw [digitChar_toNat _ hmd2]
      omega
    · decide
    · rw [digitChar_toNat _ hdd1]
      omega
    · rw [digitChar_toNat _ hdd2]
      omega
  show d0.UnmarshalJSON (jsonQuote d.String) = (d, none)
  unfold Date.UnmarshalJSON
  rw [jsonUnquote_quote_plain d.String hchars]
  dsimp only
  rw [ParseDate_String_of_valid d hv h0 h9]

/-- Counterexample for C7 as stated: year -1 is a valid date, but its
canonical string `-001-01-01` fails to re-parse, so the decode of its
encode errors (leaving the target, here the zero date, unchanged). -/
theorem C7_json_roundtrip_counterexample :
    (Date.mk (-1) 1 1).IsValid = true ∧
    ((Date.mk 0 0 0).UnmarshalJSON ((Date.mk (-1) 1 1).MarshalJSON).1).1
      ≠ Date.mk (-1) 1 1 ∧
    ((Date.mk 0 0 0).UnmarshalJSON ((Date.mk (-1) 1 1).MarshalJSON).1).2.isSome
      = true := by
  decide

/-- Witness for C7 at a concrete valid date. -/
theorem C7_json_roundtrip_witness :
    (Date.mk 0 0 0).UnmarshalJSON ((Date.mk 1987 4 15).MarshalJSON).1
      = (Date.mk 1987 4 15, none) :=
  C7_json_roundtrip ⟨1987, 4, 15⟩ ⟨0, 0, 0⟩ (by decide) (by decide) (by decide)

/-- C8 (amended): on failure, the structured (JSON) decode and the storage
scan leave the target value unchanged; the text decode instead always
overwrites the target with `ParseDate`'s value, which on failure is the
zero `Date` (`*d, err = ParseDate(string(text))`). -/
theorem C8_decode_failure (d : Date) (data : List Char) (src : ScanSrc) :
    ((d.UnmarshalJSON data).2.isSome = true → (d.UnmarshalJSON data).1 = d) ∧
    ((d.Scan src).2.isSome = true → (d.Scan src).1 = d) ∧
    ((d.UnmarshalText data).2.isSome = true →
      (d.UnmarshalText data).1 = ⟨0, 0, 0⟩) := by
  refine ⟨?_, ?_, ?_⟩
  · unfold Date.UnmarshalJSON
    cases hj : jsonUnquote data with
    | none => simp
    | some sOut =>
      cases hp : ParseDate sOut with
      | mk v verr =>
        cases verr with
        | none => simp [hp]
        | some e => simp [hp]
  · cases src with
    | timeVal t => simp [Date.Scan]
    | strVal s0 =>
      unfold Date.Scan
      cases hp : ParseDate s0 with
      | mk v verr =>
        cases verr with
        | none => simp [hp]
        | some e => simp [hp]
    | otherVal ty => simp [Date.Scan]
  · intro h
    exact ParseDate_error_val data h

/-- Counterexample for C8 as stated: a failing text decode zeroes the
target instead of leaving it unchanged. -/
theorem C8_decode_failure_counterexample :
    ((Date.mk 2020 5 5).UnmarshalText "x".data).2.isSome = true ∧
    ((Date.mk 2020 5 5).UnmarshalText "x".data).1 ≠ Date.mk 2020 5 5 := by
  decide

/-- Witness for C8: a failing JSON decode (a JSON number) keeps the
target. -/
theorem C8_decode_failure_witness :
    ((Date.mk 7 7 7).UnmarshalJSON "19870415".data).1 = Date.mk 7 7 7 :=
  (C8_decode_failure ⟨7, 7, 7⟩ "19870415".data
    (ScanSrc.otherVal "int64".data)).1 (by decide)

/-- Witness for C10 at month 13. -/
theorem C10_invalidMonth_witness :
    (Date.mk 2016 13 1).LastOfMonth = -1 ∧
      (0 ≤ (5 : Int) → ((Date.mk 2016 13 1).SetDayClamped 5).day = -1) :=
  C10_invalidMonth ⟨2016, 13, 1⟩ 5 (by decide)

end Civil

-- sanity checks of the calendar model against the repository's tests
example : (Civil.ParseDate "2016-01-02".data).1 = ⟨2016, 1, 2⟩ := by decide
example : (Civil.ParseDate "2016-01-02".data).2 = none := by decide
example : (Civil.ParseDate "2016-12-31".data).1 = ⟨2016, 12, 31⟩ := by decide
example : (Civil.ParseDate "0003-02-04".data).1 = ⟨3, 2, 4⟩ := by decide
example : (Civil.ParseDate "999-01-26".data).2.isSome = true := by decide
example : (Civil.ParseDate "999-01-26".data).1 = ⟨0, 0, 0⟩ := by decide
example : (Civil.ParseDate "".data).2.isSome = true := by decide
example : (Civil.ParseDate "2016-01-02x".data).2.isSome = true := by decide
example : (Civil.ParseDate "2016-01-02T00:00:00.000Z".data).1 = ⟨2016, 1, 2⟩ := by decide
example : (Civil.ParseDate "2016-01-02T00:00:00.000Z".data).2 = none := by decide
example : (Civil.ParseDate "2016-01-02T23:59:59.999Z".data).1 = ⟨2016, 1, 2⟩ := by decide
example : (Civil.ParseDate "2016-01-02T23:59:59+07:30".data).1 = ⟨2016, 1, 2⟩ := by decide
example : (Civil.ParseDate "2016-02-30".data).2.isSome = true := by decide
example : (Civil.Date.String ⟨2014, 7, 29⟩) = "2014-07-29".data := by decide
example : (Civil.Date.String ⟨999, 1, 26⟩) = "0999-01-26".data := by decide
example : (Civil.Date.String ⟨-1, 1, 1⟩) = "-001-01-01".data := by decide
example : (Civil.Date.String ⟨2014, 123, 1⟩) = "2014-123-01".data := by decide
example : Civil.jsonQuote "1987-04-15".data = "\"1987-04-15\"".data := by decide
example : Civil.jsonUnquote "\"1987-04-15\"".data = some "1987-04-15".data := by decide
example : (Civil.Date.UnmarshalJSON ⟨0,0,0⟩ "\"1987-04-15\"".data).1 = ⟨1987, 4, 15⟩ := by decide
example : (Civil.Date.UnmarshalJSON ⟨0,0,0⟩ "19870415".data).2 = some .json := by decide
example : (Civil.Date.UnmarshalJSON ⟨7,7,7⟩ "\"bad\"".data).1 = ⟨7,7,7⟩ := by decide

example : (Civil.Date.mk 2014 7 29).IsValid = true := by decide
example : (Civil.Date.mk 2000 2 29).IsValid = true := by decide
example : (Civil.Date.mk 10000 12 31).IsValid = true := by decide
example : (Civil.Date.mk 0 1 1).IsValid = true := by decide
example : (Civil.Date.mk (-1) 1 1).IsValid = true := by decide
example : (Civil.Date.mk 1 0 1).IsValid = false := by decide
example : (Civil.Date.mk 1 1 0).IsValid = false := by decide
example : (Civil.Date.mk 2016 1 32).IsValid = false := by decide
example : (Civil.Date.mk 2016 13 1).IsValid = false := by decide
example : (Civil.Date.mk 1 (-1) 1).IsValid = false := by decide
example : (Civil.Date.mk 1 1 (-1)).IsValid = false := by decide
example : (Civil.Date.mk 2014 12 31).AddDays 1 = ⟨2015, 1, 1⟩ := by decide
example : (Civil.Date.mk 2015 1 1).AddDays (-1) = ⟨2014, 12, 31⟩ := by decide
example : (Civil.Date.mk 2004 1 1).AddDays 366 = ⟨2005, 1, 1⟩ := by decide
example : (Civil.Date.mk 101 1 1).AddDays 365 = ⟨102, 1, 1⟩ := by decide
example : (Civil.Date.mk 2015 1 1).DaysSince ⟨2014, 12, 31⟩ = 1 := by decide
example : (Civil.Date.mk 2014 12 31).DaysSince ⟨2015, 1, 1⟩ = -1 := by decide
example : (Civil.Date.mk 2005 1 1).DaysSince ⟨2004, 1, 1⟩ = 366 := by decide
example : (Civil.Date.mk 2014 1 31).AddMonths 1 = ⟨2014, 2, 28⟩ := by
  rw [Civil.Date.AddMonths_eq]; decide
example : (Civil.Date.mk 2012 1 31).AddMonths 1 = ⟨2012, 2, 29⟩ := by
  rw [Civil.Date.AddMonths_eq]; decide
example : (Civil.Date.mk 2014 1 1).AddMonths (-1) = ⟨2013, 12, 1⟩ := by
  rw [Civil.Date.AddMonths_eq]; decide
example : (Civil.Date.mk 2014 3 31).AddMonths (-1) = ⟨2014, 2, 28⟩ := by
  rw [Civil.Date.AddMonths_eq]; decide
example : (Civil.Date.mk 2011 2 1).SetDayClamped 31 = ⟨2011, 2, 28⟩ := by decide
example : (Civil.Date.mk 2012 2 1).SetDayClamped 31 = ⟨2012, 2, 29⟩ := by decide
